import Mathlib

/-!
Verification of the crew process-pool library (lib/pool.js and the Worker
module) against its natural-language specification.

The JavaScript code is shallowly embedded: every Pool and Worker method is
translated into an executable Lean definition over explicit state records,
and the asynchronous signal handlers registered in Pool.prototype.init are
modelled as a step function on pool states.  Ghost fields (submission and
admission logs, an exit-code register, a crash flag) instrument the state so
that ordering and shutdown claims can be stated; they are write-only and
never influence any transition.
-/

namespace Crew

/-- Pool-level view of a Worker instance: the identity data the Pool reads
(the uid closure, the recorded OS pid, and the configured path).  Pool
containers compare Workers by object identity, modelled as equality of this
record. -/
structure Worker where
  uid : Nat
  pid : Nat
  path : String
deriving DecidableEq, Repr

/-- Cache record built by Pool.prototype._createCacheObject: pid, uid and
path, to which the completion handler adds a code field and the error
handler adds an error field. -/
structure CacheObj where
  pid : Nat
  uid : Nat
  path : String
  code : Option Int := none
  error : Option String := none
deriving DecidableEq, Repr

/-- The settings record produced by the Pool constructor
(this._settings). -/
structure Settings where
  maxProcs : Nat
  dieOnError : Bool
  dieOnEmpty : Bool
  cache : Bool
deriving DecidableEq, Repr

/-- The options object passed to the Pool constructor; a missing key is
none. -/
structure Options where
  maxProcs : Option Nat := none
  dieOnError : Option Bool := none
  dieOnEmpty : Option Bool := none
  cache : Option Bool := none
deriving DecidableEq, Repr

namespace Pool

/-- The constructor merges defaults with the supplied options via
util._extend: a supplied key overwrites the default unconditionally.
cpusLen is os.cpus().length, the hardware concurrency. -/
def mkSettings (cpusLen : Nat) (options : Options) : Settings :=
  { maxProcs := options.maxProcs.getD cpusLen
    dieOnError := options.dieOnError.getD true
    dieOnEmpty := options.dieOnEmpty.getD true
    cache := options.cache.getD true }

/-- What the natural-language specification asks of maxProcs: default to the
hardware concurrency and clamp a supplied value down to it.  Declared only
to compare against mkSettings, which is the translation of the source. -/
def specMaxProcs (cpusLen : Nat) (options : Options) : Nat :=
  min (options.maxProcs.getD cpusLen) cpusLen

end Pool

/-- Pool instance state.  queue, pool (the active set), completed, errors,
drain and die are the fields assigned in the constructor.  submitted and
admitted are ghost logs of submission order and admission order (write-only
instrumentation for the FIFO claims).  exitedWith records a process.exit
call from the empty handler; crashed records the TypeError that
Pool.prototype._workerError raises when it evaluates this._die(err), the
boolean _die field shadowing the _die method. -/
structure PoolState where
  queue : List Worker
  pool : List Worker
  completed : List CacheObj
  errors : List CacheObj
  drain : Bool
  die : Bool
  settings : Settings
  submitted : List Worker := []
  admitted : List Worker := []
  exitedWith : Option Nat := none
  crashed : Bool := false
deriving DecidableEq, Repr

namespace Pool

/-- State built by the Pool constructor. -/
def initPool (settings : Settings) : PoolState :=
  { queue := [], pool := [], completed := [], errors := []
    drain := false, die := false, settings := settings }

/-- Pool.prototype.queueEmpty: !this._queue.length -/
def queueEmpty (s : PoolState) : Prop := s.queue = []

/-- Pool.prototype.poolEmpty: !this._pool.length -/
def poolEmpty (s : PoolState) : Prop := s.pool = []

/-- Pool.prototype.poolFull: this._pool.length >= this.maxProcs() -/
def poolFull (s : PoolState) : Prop := s.settings.maxProcs ≤ s.pool.length

/-- Pool.prototype.active: this._pool.length -/
def active (s : PoolState) : Nat := s.pool.length

instance (s : PoolState) : Decidable (queueEmpty s) := by
  unfold queueEmpty; infer_instance

instance (s : PoolState) : Decidable (poolEmpty s) := by
  unfold poolEmpty; infer_instance

instance (s : PoolState) : Decidable (poolFull s) := by
  unfold poolFull; infer_instance

/-- Pool.prototype._runWorker: if the queue is non-empty, shift its head
into the pool and start it (createChildProc has no effect on pool state).
The admission is logged in the ghost admitted field. -/
def _runWorker (s : PoolState) : PoolState :=
  match s.queue with
  | [] => s
  | w :: rest =>
      { s with queue := rest, pool := s.pool ++ [w]
               admitted := s.admitted ++ [w] }

/-- Body of the Pool.prototype._fillPool while loop, with explicit fuel.
Each iteration that passes the guard removes exactly one queue element, so
fuel equal to the queue length never truncates the loop. -/
def fillPoolAux : Nat → PoolState → PoolState
  | 0, s => s
  | Nat.succ fuel, s =>
      if poolFull s ∨ queueEmpty s then s
      else fillPoolAux fuel (_runWorker s)

/-- Pool.prototype._fillPool: while (!this.poolFull() && !this.queueEmpty())
this._runWorker(). -/
def _fillPool (s : PoolState) : PoolState := fillPoolAux s.queue.length s

/-- Pool.prototype.drain: if (!this._drain) this._drain = true. -/
def drain (s : PoolState) : PoolState :=
  if s.drain then s else { s with drain := true }

/-- Pool.prototype._run: skip everything when in die mode; otherwise fill
the pool unless draining, and when the pool is empty while draining, clear
the drain flag and fill. -/
def _run (s : PoolState) : PoolState :=
  if s.die then s
  else
    let s1 := if ¬ s.drain then _fillPool s else s
    if poolEmpty s1 ∧ s1.drain then _fillPool { s1 with drain := false }
    else s1

/-- Pool.prototype._removeWorker: indexOf + splice, i.e. remove the first
occurrence if present and return it, else signal absence. -/
def _removeWorker (s : PoolState) (w : Worker) : Option (Worker × PoolState) :=
  if w ∈ s.pool then some (w, { s with pool := s.pool.erase w }) else none

/-- Pool.prototype._createCacheObject -/
def _createCacheObject (w : Worker) : CacheObj :=
  { pid := w.pid, uid := w.uid, path := w.path }

/-- Pool.prototype._workerLost: force drain; the best-effort kill of the
lost worker touches only worker-side state. -/
def _workerLost (s : PoolState) (_w : Worker) : PoolState :=
  drain s

/-- Pool.prototype._workerCompleted: remove the worker from the pool; if
found, cache a compact record when caching is on, then re-run; if not
found, take the lost-worker path. -/
def _workerCompleted (s : PoolState) (w : Worker) (code : Int) : PoolState :=
  match _removeWorker s w with
  | some (w', s') =>
      let s'' :=
        if s'.settings.cache then
          { s' with completed :=
              s'.completed ++ [{ _createCacheObject w' with code := some code }] }
        else s'
      _run s''
  | none => _workerLost s w

/-- Pool.prototype._workerError: remove the worker; if found, cache an
error record when caching is on; then, under dieOnError, the source
evaluates this._die(err) - but the boolean _die field assigned in the
constructor shadows the _die method on the prototype, so that call raises a
TypeError, modelled by the crashed flag; without dieOnError it re-runs. -/
def _workerError (s : PoolState) (w : Worker) (err : String) : PoolState :=
  match _removeWorker s w with
  | some (w', s') =>
      let s'' :=
        if s'.settings.cache then
          { s' with errors :=
              s'.errors ++ [{ _createCacheObject w' with error := some err }] }
        else s'
      if s''.settings.dieOnError then { s'' with crashed := true }
      else _run s''
  | none => _workerLost s w

/-- Pool.prototype._die, the method on the prototype (unreachable through
this._die, which resolves to the shadowing boolean field): sets the die
flag and drains; it kills no pool member. -/
def dieMethod (s : PoolState) (_err : String) : PoolState :=
  if s.die then s else drain { s with die := true }

/-- The empty handler registered in init: on the empty event it emits done
and, when dieOnEmpty or die holds, calls process.exit(0).  _checkEmpty
emits empty exactly when both pool and queue are empty. -/
def _checkEmpty (s : PoolState) : PoolState :=
  if poolEmpty s ∧ queueEmpty s then
    if s.settings.dieOnEmpty || s.die then { s with exitedWith := some 0 }
    else s
  else s

/-- Pool.prototype.addWorker: bind the worker, push it onto the queue, run.
The submission is logged in the ghost submitted field. -/
def addWorker (s : PoolState) (w : Worker) : PoolState :=
  _run { s with queue := s.queue ++ [w], submitted := s.submitted ++ [w] }

/-- Pool.prototype.getCache: the completed and error record lists. -/
def getCache (s : PoolState) : List CacheObj × List CacheObj :=
  (s.completed, s.errors)

/-- Event name the worker error handler in Pool.prototype.init subscribes
to on the killed worker (pool.js line 90). -/
def poolErrorListenerEvent : String := "terminate"

/-- Event name Worker.prototype.kill actually emits on completion. -/
def workerTerminatedEvent : String := "terminated"

/-- The handler for a worker error signal registered in
Pool.prototype.init: it kills the worker and subscribes _workerError to the
terminate event on it - but the worker only ever emits terminated, so the
callback fires exactly when those two names coincide; then _checkEmpty
runs. -/
def onWorkerError (s : PoolState) (w : Worker) (err : String) : PoolState :=
  let s1 :=
    if poolErrorListenerEvent = workerTerminatedEvent then _workerError s w err
    else s
  _checkEmpty s1

/-- The handler for a worker completion signal registered in
Pool.prototype.init: _workerCompleted then _checkEmpty. -/
def onWorkerComplete (s : PoolState) (w : Worker) (code : Int) : PoolState :=
  _checkEmpty (_workerCompleted s w code)

/-- External stimuli a live Pool can receive: a submission from the caller,
a completion or error signal from a worker process, or a drain request. -/
inductive Event where
  | submit (w : Worker)
  | complete (w : Worker) (code : Int)
  | error (w : Worker) (err : String)
  | drainReq
deriving DecidableEq, Repr

/-- Dispatch of one event to the corresponding handler. -/
def applyEvent (s : PoolState) (e : Event) : PoolState :=
  match e with
  | .submit w => addWorker s w
  | .complete w code => onWorkerComplete s w code
  | .error w err => onWorkerError s w err
  | .drainReq => drain s

/-- The reachable pool states: the constructor state, closed under events
delivered while the host process is still alive. -/
inductive Reachable (cfg : Settings) : PoolState → Prop
  | init : Reachable cfg (initPool cfg)
  | step {s : PoolState} (e : Event) :
      Reachable cfg s → s.exitedWith = none → Reachable cfg (applyEvent s e)

/-- Completing the oldest active worker with exit code 0: the driver used
to express eventual admission under repeated completion signals. -/
def pump (s : PoolState) : PoolState :=
  match s.pool with
  | [] => s
  | w :: _ => onWorkerComplete s w 0

end Pool

/-- The child-process handle as the Worker code observes it: the OS pid,
the uid the spawn code stamps onto the handle (child._uid), the IPC
connection flag, the killed flag set by child.kill, and the private exit
marker the exit listener sets (child.__exit__). -/
structure ChildProc where
  pid : Nat
  childUid : Option Nat := none
  connected : Bool := false
  killed : Bool := false
  exitMark : Bool := false
deriving DecidableEq, Repr

/-- Worker instance state for the lifecycle claims: the uid closure value,
the pid recorded at spawn (this._pid), the child handle (this._child), the
child_uid property that Worker.prototype.verifyChild reads even though no
statement in the repository ever assigns it, and the buffered initial
payload (this._settings.data). -/
structure WorkerState where
  uidVal : Nat
  pidRec : Option Nat := none
  child : Option ChildProc := none
  child_uid : Option Nat := none
  settingsData : Option Int := none
deriving DecidableEq, Repr

namespace WorkerState

/-- Worker uid getter (the closure accessor). -/
def uid (w : WorkerState) : Nat := w.uidVal

/-- Worker.prototype.isKilled: this._child && this._child.killed. -/
def isKilled (w : WorkerState) : Bool :=
  match w.child with
  | none => false
  | some c => c.killed

/-- Worker.prototype.isExited: this._child && this._child.__exit__. -/
def isExited (w : WorkerState) : Bool :=
  match w.child with
  | none => false
  | some c => c.exitMark

/-- Worker.prototype.verifyChild, current variant:
this._child && this._child.pid === this._pid && this.child_uid === this.uid().
The last conjunct compares the never-assigned child_uid property with the
uid number. -/
def verifyChild (w : WorkerState) : Bool :=
  match w.child with
  | none => false
  | some c => (some c.pid == w.pidRec) && (w.child_uid == some w.uid)

/-- Worker.prototype.verifyChild, earlier variant (takes the child):
child && child._uid === this.uid() && child.pid === this._pid. -/
def verifyChildV1 (w : WorkerState) (child : Option ChildProc) : Bool :=
  match child with
  | none => false
  | some c => (c.childUid == some w.uid) && (some c.pid == w.pidRec)

/-- Task.prototype.verifyChild:
if (!child) return false;
return (child.pid && child.pid === this._pid
        && child._uid && child._uid === this.uid()). -/
def taskVerifyChild (w : WorkerState) (child : Option ChildProc) : Bool :=
  match child with
  | none => false
  | some c =>
      decide (c.pid ≠ 0) && (some c.pid == w.pidRec) &&
        (match c.childUid with
         | none => false
         | some u => decide (u ≠ 0) && (u == w.uid))

/-- Worker.prototype.createChildProc: requires a bound pool (else it
throws), forks a child at the OS-chosen pid, sends the buffered payload
when defined, stamps child._uid with the worker uid and records the pid.
Returns the new worker state and the payload transmitted at spawn. -/
def createChildProc (w : WorkerState) (poolBound : Bool) (osPid : Nat) :
    Option (WorkerState × Option Int) :=
  if poolBound then
    some
      ({ w with
          child := some
            { pid := osPid, childUid := some w.uid, connected := true }
          pidRec := some osPid },
        w.settingsData)
  else none

/-- JavaScript truthiness of the expression self.verifyChild inside
Worker.prototype.kill: the method reference is taken without calling it,
and a function object is always truthy. -/
def verifyChildRef (_w : WorkerState) : Bool := true

/-- Worker.prototype.kill: reads this._child.connected, so it throws when
no child exists (none result).  Otherwise, when
self.verifyChild && (!this.isKilled() || !this.isExited()) holds, it
disconnects if needed and then runs killProc, which kills the child and
emits terminated once; the returned number counts the terminated emissions
of this call. -/
def kill (w : WorkerState) : Option (WorkerState × Nat) :=
  match w.child with
  | none => none
  | some c =>
      if verifyChildRef w && (!(isKilled w) || !(isExited w)) then
        some
          ({ w with child := some { c with connected := false, killed := true } }, 1)
      else some (w, 0)

/-- Worker.prototype.send: when this.verifyChild() && !this.isKilled(),
transmit the data to the child (second component of the result); else, if
this._settings.data is defined, overwrite it with the new data; else do
nothing. -/
def send (w : WorkerState) (data : Int) : WorkerState × Option Int :=
  if verifyChild w && !(isKilled w) then (w, some data)
  else if w.settingsData.isSome then ({ w with settingsData := some data }, none)
  else (w, none)

end WorkerState

/-- A worker as it stands right after a successful spawn: uid 1, forked at
OS pid 7 with the uid stamped onto the child handle and the pid recorded,
no initial payload. -/
def runningWorker : WorkerState :=
  { uidVal := 1
    pidRec := some 7
    child := some
      { pid := 7, childUid := some 1, connected := true
        killed := false, exitMark := false } }

/-- The running worker after one kill: the child is killed and
disconnected but has not emitted exit, so isKilled holds and isExited does
not - a terminal state in the sense of the specification. -/
def killedWorker : WorkerState :=
  { runningWorker with
      child := some
        { pid := 7, childUid := some 1, connected := false
          killed := true, exitMark := false } }

namespace Pool

/-- The state invariant maintained by every live Pool: the settings are the
construction settings; the active set respects maxProcs; the submission log
is the admission log followed by the queue (admission order is submission
order); with caching off, both caches stay empty; the die flag is never
set (no reachable code path assigns it); any recorded process exit used
status 0; the dieOnError crash is never reached; and, when at least one
slot exists, an empty active set forces an empty queue. -/
structure Inv (cfg : Settings) (s : PoolState) : Prop where
  settings : s.settings = cfg
  bounded : s.pool.length ≤ cfg.maxProcs
  order : s.submitted = s.admitted ++ s.queue
  noCache : cfg.cache = false → s.completed = [] ∧ s.errors = []
  dieOff : s.die = false
  exitZero : s.exitedWith = none ∨ s.exitedWith = some 0
  noCrash : s.crashed = false
  flush : 1 ≤ cfg.maxProcs → s.pool = [] → s.queue = []

end Pool

/-- Demonstration configuration: 4 CPUs, maxProcs limited to 2, all other
settings left at their defaults. -/
def cfg2 : Settings := Pool.mkSettings 4 { maxProcs := some 2 }

/-- Demonstration workers. -/
def wA : Worker := ⟨1, 101, "a.js"⟩

def wB : Worker := ⟨2, 102, "b.js"⟩

def wC : Worker := ⟨3, 103, "c.js"⟩

/-- Demonstration state: three submissions into a fresh maxProcs-2 pool;
wA and wB are active, wC waits in the queue. -/
def sDemo : PoolState :=
  Pool.applyEvent
    (Pool.applyEvent
      (Pool.applyEvent (Pool.initPool cfg2) (Pool.Event.submit wA))
      (Pool.Event.submit wB))
    (Pool.Event.submit wC)

/-- Demonstration state in drain mode: sDemo after a drain request. -/
def sDrain : PoolState := Pool.applyEvent sDemo Pool.Event.drainReq

/-- A pool that somehow reached die state with no work left, used to
evaluate the empty handler there. -/
def sDie : PoolState := { Pool.initPool cfg2 with die := true }

/-- Configuration with caching disabled. -/
def cfgNC : Settings := Pool.mkSettings 4 { cache := some false }

/-- A no-caching pool after one submission and its completion signal. -/
def sNC : PoolState :=
  Pool.applyEvent
    (Pool.applyEvent (Pool.initPool cfgNC) (Pool.Event.submit wA))
    (Pool.Event.complete wA 0)

end Crew

namespace Crew.Pool

/-! ### Field preservation and structure lemmas -/

theorem runWorker_nil {s : PoolState} (h : s.queue = []) : _runWorker s = s := by
  unfold _runWorker
  rw [h]

theorem runWorker_cons {s : PoolState} {w : Worker} {rest : List Worker}
    (h : s.queue = w :: rest) :
    _runWorker s =
      { s with queue := rest, pool := s.pool ++ [w]
               admitted := s.admitted ++ [w] } := by
  unfold _runWorker
  rw [h]

/-- fillPoolAux admits some prefix of the queue, in order, and changes
nothing else. -/
theorem fillPoolAux_spec (fuel : Nat) (s : PoolState) :
    ∃ k, k ≤ s.queue.length ∧
      fillPoolAux fuel s =
        { s with queue := s.queue.drop k
                 pool := s.pool ++ s.queue.take k
                 admitted := s.admitted ++ s.queue.take k } := by
  induction fuel generalizing s with
  | zero =>
    refine ⟨0, Nat.zero_le _, ?_⟩
    simp only [List.drop_zero, List.take_zero, List.append_nil]
    rfl
  | succ fuel ih =>
    have hstep : fillPoolAux (fuel + 1) s =
        if poolFull s ∨ queueEmpty s then s
        else fillPoolAux fuel (_runWorker s) := rfl
    by_cases h : poolFull s ∨ queueEmpty s
    · refine ⟨0, Nat.zero_le _, ?_⟩
      rw [hstep, if_pos h]
      simp only [List.drop_zero, List.take_zero, List.append_nil]
    · have hq : s.queue ≠ [] := by
        intro hnil
        exact h (Or.inr hnil)
      obtain ⟨w, rest, hcons⟩ := List.exists_cons_of_ne_nil hq
      have hrw := runWorker_cons hcons
      obtain ⟨k, hk, hres⟩ := ih (_runWorker s)
      refine ⟨k + 1, ?_, ?_⟩
      · rw [hcons]
        simpa [hrw, hcons] using Nat.succ_le_succ hk
      · rw [hstep, if_neg h, hres, hrw, hcons]
        simp [List.append_assoc]

/-- With fuel at least the queue length, the fillPool loop runs to its
fixpoint: the pool is full or the queue is exhausted. -/
theorem fillPoolAux_post (fuel : Nat) (s : PoolState)
    (hfuel : s.queue.length ≤ fuel) :
    poolFull (fillPoolAux fuel s) ∨ (fillPoolAux fuel s).queue = [] := by
  induction fuel generalizing s with
  | zero =>
    right
    simpa [fillPoolAux] using List.eq_nil_of_length_eq_zero (Nat.le_zero.mp hfuel)
  | succ fuel ih =>
    have hstep : fillPoolAux (fuel + 1) s =
        if poolFull s ∨ queueEmpty s then s
        else fillPoolAux fuel (_runWorker s) := rfl
    by_cases h : poolFull s ∨ queueEmpty s
    · rw [hstep, if_pos h]
      rcases h with h | h
      · exact Or.inl h
      · exact Or.inr h
    · have hq : s.queue ≠ [] := fun hnil => h (Or.inr hnil)
      obtain ⟨w, rest, hcons⟩ := List.exists_cons_of_ne_nil hq
      rw [hstep, if_neg h]
      apply ih
      rw [runWorker_cons hcons]
      simpa [hcons] using Nat.le_of_succ_le_succ (by simpa [hcons] using hfuel)

/-- fillPool never pushes the active set past maxProcs. -/
theorem fillPoolAux_bounded (fuel : Nat) (s : PoolState)
    (h : s.pool.length ≤ s.settings.maxProcs) :
    (fillPoolAux fuel s).pool.length ≤ s.settings.maxProcs := by
  induction fuel generalizing s with
  | zero => simpa [fillPoolAux] using h
  | succ fuel ih =>
    have hstep : fillPoolAux (fuel + 1) s =
        if poolFull s ∨ queueEmpty s then s
        else fillPoolAux fuel (_runWorker s) := rfl
    by_cases hc : poolFull s ∨ queueEmpty s
    · rw [hstep, if_pos hc]
      exact h
    · have hq : s.queue ≠ [] := fun hnil => hc (Or.inr hnil)
      obtain ⟨w, rest, hcons⟩ := List.exists_cons_of_ne_nil hq
      have hfull : ¬ poolFull s := fun hf => hc (Or.inl hf)
      have hlt : s.pool.length < s.settings.maxProcs :=
        Nat.lt_of_not_le (fun hle => hfull hle)
      rw [hstep, if_neg hc]
      have hrun : (_runWorker s).settings = s.settings := by
        rw [runWorker_cons hcons]
      have := ih (_runWorker s) (by
        rw [runWorker_cons hcons]
        simpa using Nat.succ_le_of_lt hlt)
      rw [hrun] at this
      exact this

theorem fillPool_spec (s : PoolState) :
    ∃ k, k ≤ s.queue.length ∧
      _fillPool s =
        { s with queue := s.queue.drop k
                 pool := s.pool ++ s.queue.take k
                 admitted := s.admitted ++ s.queue.take k } :=
  fillPoolAux_spec s.queue.length s

theorem fillPool_post (s : PoolState) :
    poolFull (_fillPool s) ∨ (_fillPool s).queue = [] :=
  fillPoolAux_post s.queue.length s (Nat.le_refl _)

theorem fillPool_settings (s : PoolState) : (_fillPool s).settings = s.settings := by
  obtain ⟨k, _, h⟩ := fillPool_spec s
  rw [h]

theorem fillPool_drain (s : PoolState) : (_fillPool s).drain = s.drain := by
  obtain ⟨k, _, h⟩ := fillPool_spec s
  rw [h]

theorem fillPool_die (s : PoolState) : (_fillPool s).die = s.die := by
  obtain ⟨k, _, h⟩ := fillPool_spec s
  rw [h]

theorem fillPool_caches (s : PoolState) :
    (_fillPool s).completed = s.completed ∧ (_fillPool s).errors = s.errors := by
  obtain ⟨k, _, h⟩ := fillPool_spec s
  rw [h]
  exact ⟨rfl, rfl⟩

theorem fillPool_submitted (s : PoolState) : (_fillPool s).submitted = s.submitted := by
  obtain ⟨k, _, h⟩ := fillPool_spec s
  rw [h]

theorem fillPool_exited (s : PoolState) : (_fillPool s).exitedWith = s.exitedWith := by
  obtain ⟨k, _, h⟩ := fillPool_spec s
  rw [h]

theorem fillPool_crashed (s : PoolState) : (_fillPool s).crashed = s.crashed := by
  obtain ⟨k, _, h⟩ := fillPool_spec s
  rw [h]

theorem fillPool_order (s : PoolState)
    (h : s.submitted = s.admitted ++ s.queue) :
    (_fillPool s).submitted = (_fillPool s).admitted ++ (_fillPool s).queue := by
  obtain ⟨k, _, hs⟩ := fillPool_spec s
  rw [hs]
  simp [h, List.append_assoc, List.take_append_drop]

theorem fillPool_sum (s : PoolState) :
    (_fillPool s).queue.length + (_fillPool s).pool.length =
      s.queue.length + s.pool.length := by
  obtain ⟨k, hk, hs⟩ := fillPool_spec s
  rw [hs]
  simp only [List.length_append, List.length_drop, List.length_take]
  omega

theorem fillPool_bounded (s : PoolState)
    (h : s.pool.length ≤ s.settings.maxProcs) :
    (_fillPool s).pool.length ≤ s.settings.maxProcs :=
  fillPoolAux_bounded s.queue.length s h

/-! ### Lemmas about _run -/

theorem run_of_die {s : PoolState} (h : s.die = true) : _run s = s := by
  simp [_run, h]

theorem run_of_not_drain {s : PoolState} (hd : s.die = false)
    (h : s.drain = false) : _run s = _fillPool s := by
  have hdr : (_fillPool s).drain = false := by rw [fillPool_drain, h]
  simp [_run, hd, h, hdr]

theorem run_drain_busy {s : PoolState} (h1 : s.drain = true)
    (h2 : s.pool ≠ []) : _run s = s := by
  by_cases hd : s.die = true
  · exact run_of_die hd
  · have hd' : s.die = false := by
      cases hdie : s.die
      · rfl
      · exact absurd hdie hd
    simp [_run, hd', h1, poolEmpty, h2]

theorem run_drain_clear {s : PoolState} (hd : s.die = false)
    (h1 : s.drain = true) (h2 : s.pool = []) :
    _run s = _fillPool { s with drain := false } := by
  simp [_run, hd, h1, poolEmpty, h2]

/-- _run is the identity, a plain fill, or a drain-clearing fill of an
emptied pool. -/
theorem run_eq_cases (s : PoolState) :
    _run s = s ∨ _run s = _fillPool s ∨
      (s.pool = [] ∧ _run s = _fillPool { s with drain := false }) := by
  by_cases hd : s.die = true
  · exact Or.inl (run_of_die hd)
  · have hd' : s.die = false := by
      cases hdie : s.die
      · rfl
      · exact absurd hdie hd
    by_cases hdr : s.drain = true
    · by_cases hp : s.pool = []
      · exact Or.inr (Or.inr ⟨hp, run_drain_clear hd' hdr hp⟩)
      · exact Or.inl (run_drain_busy hdr hp)
    · have hdr' : s.drain = false := by
        cases hx : s.drain
        · rfl
        · exact absurd hx hdr
      exact Or.inr (Or.inl (run_of_not_drain hd' hdr'))

theorem run_settings (s : PoolState) : (_run s).settings = s.settings := by
  rcases run_eq_cases s with h | h | ⟨hp, h⟩ <;> rw [h]
  · rw [fillPool_settings]
  · rw [fillPool_settings]

theorem run_die_field (s : PoolState) : (_run s).die = s.die := by
  rcases run_eq_cases s with h | h | ⟨hp, h⟩ <;> rw [h]
  · rw [fillPool_die]
  · rw [fillPool_die]

theorem run_caches (s : PoolState) :
    (_run s).completed = s.completed ∧ (_run s).errors = s.errors := by
  rcases run_eq_cases s with h | h | ⟨hp, h⟩ <;> rw [h]
  · exact ⟨rfl, rfl⟩
  · exact fillPool_caches s
  · exact fillPool_caches _

theorem run_submitted (s : PoolState) : (_run s).submitted = s.submitted := by
  rcases run_eq_cases s with h | h | ⟨hp, h⟩ <;> rw [h]
  · rw [fillPool_submitted]
  · rw [fillPool_submitted]

theorem run_exited (s : PoolState) : (_run s).exitedWith = s.exitedWith := by
  rcases run_eq_cases s with h | h | ⟨hp, h⟩ <;> rw [h]
  · rw [fillPool_exited]
  · rw [fillPool_exited]

theorem run_crashed (s : PoolState) : (_run s).crashed = s.crashed := by
  rcases run_eq_cases s with h | h | ⟨hp, h⟩ <;> rw [h]
  · rw [fillPool_crashed]
  · rw [fillPool_crashed]

theorem run_order {s : PoolState}
    (h : s.submitted = s.admitted ++ s.queue) :
    (_run s).submitted = (_run s).admitted ++ (_run s).queue := by
  rcases run_eq_cases s with heq | heq | ⟨hp, heq⟩ <;> rw [heq]
  · exact h
  · exact fillPool_order s h
  · exact fillPool_order _ h

theorem run_bounded {s : PoolState}
    (h : s.pool.length ≤ s.settings.maxProcs) :
    (_run s).pool.length ≤ s.settings.maxProcs := by
  rcases run_eq_cases s with heq | heq | ⟨hp, heq⟩ <;> rw [heq]
  · exact h
  · exact fillPool_bounded s h
  · exact fillPool_bounded _ (by simp [hp])

theorem run_sum (s : PoolState) :
    (_run s).queue.length + (_run s).pool.length =
      s.queue.length + s.pool.length := by
  rcases run_eq_cases s with heq | heq | ⟨hp, heq⟩ <;> rw [heq]
  · exact fillPool_sum s
  · exact fillPool_sum _

theorem fillPool_flush {s : PoolState} (hm : 1 ≤ s.settings.maxProcs)
    (hp : (_fillPool s).pool = []) : (_fillPool s).queue = [] := by
  rcases fillPool_post s with hful | hq
  · exfalso
    have : s.settings.maxProcs ≤ (_fillPool s).pool.length := by
      have := hful
      unfold poolFull at this
      rwa [fillPool_settings] at this
    rw [hp] at this
    simp at this
    omega
  · exact hq

theorem run_flush {s : PoolState} (hd : s.die = false)
    (hm : 1 ≤ s.settings.maxProcs) (hp : (_run s).pool = []) :
    (_run s).queue = [] := by
  by_cases hdr : s.drain = true
  · by_cases hpe : s.pool = []
    · rw [run_drain_clear hd hdr hpe] at hp ⊢
      exact fillPool_flush hm hp
    · rw [run_drain_busy hdr hpe] at hp
      exact absurd hp hpe
  · have hdr' : s.drain = false := by
      cases hx : s.drain
      · rfl
      · exact absurd hx hdr
    rw [run_of_not_drain hd hdr'] at hp ⊢
    exact fillPool_flush hm hp

/-! ### Lemmas about _checkEmpty and the remaining handlers -/

theorem checkEmpty_eq (s : PoolState) :
    _checkEmpty s = s ∨ _checkEmpty s = { s with exitedWith := some 0 } := by
  unfold _checkEmpty
  by_cases h1 : poolEmpty s ∧ queueEmpty s
  · rw [if_pos h1]
    by_cases h2 : (s.settings.dieOnEmpty || s.die) = true
    · rw [if_pos h2]
      exact Or.inr rfl
    · rw [if_neg h2]
      exact Or.inl rfl
  · rw [if_neg h1]
    exact Or.inl rfl

theorem onWorkerError_eq (s : PoolState) (w : Worker) (err : String) :
    onWorkerError s w err = _checkEmpty s := by
  unfold onWorkerError
  have hne : ¬ (poolErrorListenerEvent = workerTerminatedEvent) := by decide
  rw [if_neg hne]

theorem drain_queue (s : PoolState) : (drain s).queue = s.queue := by
  unfold drain
  by_cases h : s.drain = true <;> simp [h]

theorem drain_pool (s : PoolState) : (drain s).pool = s.pool := by
  unfold drain
  by_cases h : s.drain = true <;> simp [h]

theorem drain_eq (s : PoolState) :
    drain s = s ∨ drain s = { s with drain := true } := by
  unfold drain
  by_cases h : s.drain = true
  · rw [if_pos h]
    exact Or.inl rfl
  · rw [if_neg h]
    exact Or.inr rfl

theorem workerCompleted_found {s : PoolState} {w : Worker} (code : Int)
    (hmem : w ∈ s.pool) :
    _workerCompleted s w code =
      _run (if s.settings.cache then
              { s with pool := s.pool.erase w
                       completed := s.completed ++
                         [{ _createCacheObject w with code := some code }] }
            else { s with pool := s.pool.erase w }) := by
  unfold _workerCompleted _removeWorker
  rw [if_pos hmem]

theorem workerCompleted_lost {s : PoolState} {w : Worker} (code : Int)
    (hmem : ¬ w ∈ s.pool) :
    _workerCompleted s w code = drain s := by
  unfold _workerCompleted _removeWorker
  rw [if_neg hmem]
  rfl

theorem workerError_found {s : PoolState} {w : Worker} (err : String)
    (hmem : w ∈ s.pool) :
    _workerError s w err =
      (let s'' := if s.settings.cache then
              { s with pool := s.pool.erase w
                       errors := s.errors ++
                         [{ _createCacheObject w with error := some err }] }
            else { s with pool := s.pool.erase w }
       if s''.settings.dieOnError then { s'' with crashed := true }
       else _run s'') := by
  unfold _workerError _removeWorker
  rw [if_pos hmem]

theorem workerError_lost {s : PoolState} {w : Worker} (err : String)
    (hmem : ¬ w ∈ s.pool) :
    _workerError s w err = drain s := by
  unfold _workerError _removeWorker
  rw [if_neg hmem]
  rfl

/-! ### Invariant preservation -/

theorem inv_initPool (cfg : Settings) : Inv cfg (initPool cfg) := by
  constructor <;> simp [initPool]

theorem inv_run {cfg : Settings} {t : PoolState} (hset : t.settings = cfg)
    (hb : t.pool.length ≤ cfg.maxProcs)
    (ho : t.submitted = t.admitted ++ t.queue)
    (hnc : cfg.cache = false → t.completed = [] ∧ t.errors = [])
    (hd : t.die = false)
    (hex : t.exitedWith = none ∨ t.exitedWith = some 0)
    (hcr : t.crashed = false) : Inv cfg (_run t) := by
  refine ⟨?_, ?_, ?_, ?_, ?_, ?_, ?_, ?_⟩
  · rw [run_settings, hset]
  · have := run_bounded (s := t) (by rw [hset]; exact hb)
    rwa [hset] at this
  · exact run_order ho
  · intro hc
    rcases run_caches t with ⟨h1, h2⟩
    rw [h1, h2]
    exact hnc hc
  · rw [run_die_field]
    exact hd
  · rw [run_exited]
    exact hex
  · rw [run_crashed]
    exact hcr
  · intro hm hp
    exact run_flush hd (by rw [hset]; exact hm) hp

theorem inv_checkEmpty {cfg : Settings} {s : PoolState} (h : Inv cfg s) :
    Inv cfg (_checkEmpty s) := by
  rcases checkEmpty_eq s with heq | heq <;> rw [heq]
  · exact h
  · exact ⟨h.settings, h.bounded, h.order, h.noCache, h.dieOff,
      Or.inr rfl, h.noCrash, h.flush⟩

theorem inv_drain {cfg : Settings} {s : PoolState} (h : Inv cfg s) :
    Inv cfg (drain s) := by
  rcases drain_eq s with heq | heq <;> rw [heq]
  · exact h
  · exact ⟨h.settings, h.bounded, h.order, h.noCache, h.dieOff,
      h.exitZero, h.noCrash, h.flush⟩

theorem inv_addWorker {cfg : Settings} {s : PoolState} (h : Inv cfg s)
    (w : Worker) : Inv cfg (addWorker s w) := by
  unfold addWorker
  apply inv_run
  · exact h.settings
  · exact h.bounded
  · show s.submitted ++ [w] = s.admitted ++ (s.queue ++ [w])
    rw [h.order, List.append_assoc]
  · exact h.noCache
  · exact h.dieOff
  · exact h.exitZero
  · exact h.noCrash

theorem inv_workerCompleted {cfg : Settings} {s : PoolState} (h : Inv cfg s)
    (w : Worker) (code : Int) : Inv cfg (_workerCompleted s w code) := by
  by_cases hmem : w ∈ s.pool
  · rw [workerCompleted_found code hmem]
    have hlen : (s.pool.erase w).length ≤ cfg.maxProcs :=
      Nat.le_trans (List.Sublist.length_le (List.erase_sublist w s.pool)) h.bounded
    by_cases hc : s.settings.cache = true
    · rw [if_pos hc]
      apply inv_run
      · exact h.settings
      · exact hlen
      · exact h.order
      · intro hfalse
        exfalso
        rw [h.settings] at hc
        rw [hfalse] at hc
        exact Bool.false_ne_true hc
      · exact h.dieOff
      · exact h.exitZero
      · exact h.noCrash
    · rw [if_neg hc]
      apply inv_run
      · exact h.settings
      · exact hlen
      · exact h.order
      · intro hfalse
        exact h.noCache hfalse
      · exact h.dieOff
      · exact h.exitZero
      · exact h.noCrash
  · rw [workerCompleted_lost code hmem]
    exact inv_drain h

theorem inv_applyEvent {cfg : Settings} {s : PoolState} (h : Inv cfg s)
    (e : Event) : Inv cfg (applyEvent s e) := by
  cases e with
  | submit w => exact inv_addWorker h w
  | complete w code => exact inv_checkEmpty (inv_workerCompleted h w code)
  | error w err =>
      show Inv cfg (onWorkerError s w err)
      rw [onWorkerError_eq]
      exact inv_checkEmpty h
  | drainReq => exact inv_drain h

/-- Every reachable pool state satisfies the invariant. -/
theorem reachable_inv {cfg : Settings} {s : PoolState}
    (h : Reachable cfg s) : Inv cfg s := by
  induction h with
  | init => exact inv_initPool cfg
  | step e _ _ ih => exact inv_applyEvent ih e

/-! ### Further helpers: admission silence under drain, pump termination -/

theorem checkEmpty_main_fields (s : PoolState) :
    (_checkEmpty s).queue = s.queue ∧ (_checkEmpty s).pool = s.pool ∧
    (_checkEmpty s).admitted = s.admitted ∧
    (_checkEmpty s).submitted = s.submitted ∧
    (_checkEmpty s).drain = s.drain := by
  rcases checkEmpty_eq s with h | h <;> rw [h] <;> exact ⟨rfl, rfl, rfl, rfl, rfl⟩

theorem run_admitted_drain_busy {t : PoolState} (h1 : t.drain = true)
    (h2 : t.pool ≠ []) : (_run t).admitted = t.admitted := by
  rw [run_drain_busy h1 h2]

theorem addWorker_admitted_drain_busy {s : PoolState} (h1 : s.drain = true)
    (h2 : s.pool ≠ []) (w : Worker) :
    (addWorker s w).admitted = s.admitted := by
  unfold addWorker
  exact run_admitted_drain_busy h1 h2

theorem error_admitted_unchanged (s : PoolState) (w : Worker) (err : String) :
    (onWorkerError s w err).admitted = s.admitted := by
  rw [onWorkerError_eq]
  exact (checkEmpty_main_fields s).2.2.1

theorem complete_admitted_drain_busy {s : PoolState} {w : Worker} (c : Int)
    (h1 : s.drain = true) (h2 : s.pool.erase w ≠ []) :
    (onWorkerComplete s w c).admitted = s.admitted := by
  unfold onWorkerComplete
  rw [(checkEmpty_main_fields (_workerCompleted s w c)).2.2.1]
  by_cases hmem : w ∈ s.pool
  · rw [workerCompleted_found c hmem]
    by_cases hc : s.settings.cache = true
    · rw [if_pos hc]
      exact run_admitted_drain_busy h1 h2
    · rw [if_neg hc]
      exact run_admitted_drain_busy h1 h2
  · rw [workerCompleted_lost c hmem]
    rcases drain_eq s with h | h <;> rw [h]

/-- In a duplicate-free append, a position that holds an element of the
left part lies inside the left part and reads the same there. -/
theorem index_into_left {α : Type} {adm q : List α} {i : Nat} {A : α}
    (hnd : (adm ++ q).Nodup) (hi : (adm ++ q)[i]? = some A) (hA : A ∈ adm) :
    i < adm.length ∧ adm[i]? = some A := by
  obtain ⟨k, hk⟩ := List.mem_iff_getElem?.mp hA
  have hklt : k < adm.length := (List.getElem?_eq_some.mp hk).1
  have hsub : (adm ++ q)[k]? = some A := by
    rw [List.getElem?_append_left hklt]
    exact hk
  have hilt : i < (adm ++ q).length := (List.getElem?_eq_some.mp hi).1
  have hij : i = k := List.getElem?_inj hilt hnd (hi.trans hsub.symm)
  subst hij
  refine ⟨hklt, ?_⟩
  rw [← List.getElem?_append_left hklt]
  exact hi

theorem inv_pump {cfg : Settings} {s : PoolState} (h : Inv cfg s) :
    Inv cfg (pump s) := by
  rcases hp : s.pool with _ | ⟨w, rest⟩
  · unfold pump
    rw [hp]
    exact h
  · unfold pump
    rw [hp]
    exact inv_checkEmpty (inv_workerCompleted h w 0)

theorem pump_measure {s : PoolState} {w : Worker} {rest : List Worker}
    (hp : s.pool = w :: rest) :
    (pump s).queue.length + (pump s).pool.length + 1 =
      s.queue.length + s.pool.length := by
  have hpump : pump s = onWorkerComplete s w 0 := by
    unfold pump
    rw [hp]
  rw [hpump]
  unfold onWorkerComplete
  rw [(checkEmpty_main_fields (_workerCompleted s w 0)).1,
      (checkEmpty_main_fields (_workerCompleted s w 0)).2.1]
  have hmem : w ∈ s.pool := by
    rw [hp]
    exact List.mem_cons_self w rest
  rw [workerCompleted_found 0 hmem]
  have herase : s.pool.erase w = rest := by
    rw [hp]
    exact List.erase_cons_head w rest
  by_cases hc : s.settings.cache = true
  · rw [if_pos hc, run_sum]
    simp only [herase, hp, List.length_cons, List.erase_cons_head]
    omega
  · rw [if_neg hc, run_sum]
    simp only [herase, hp, List.length_cons, List.erase_cons_head]
    omega

/-- Repeatedly completing the oldest active worker empties the pool and the
queue; the invariant travels along. -/
theorem pump_reaches_empty {cfg : Settings} :
    ∀ (N : Nat) (s : PoolState), Inv cfg s → 1 ≤ cfg.maxProcs →
      s.queue.length + s.pool.length ≤ N →
      ∃ n, (pump^[n] s).queue = [] ∧ (pump^[n] s).pool = [] ∧
        Inv cfg (pump^[n] s) := by
  intro N
  induction N with
  | zero =>
    intro s h hm hle
    have hq : s.queue = [] := List.eq_nil_of_length_eq_zero (by omega)
    have hp : s.pool = [] := List.eq_nil_of_length_eq_zero (by omega)
    exact ⟨0, by simpa using hq, by simpa using hp, by simpa using h⟩
  | succ N ih =>
    intro s h hm hle
    rcases hp : s.pool with _ | ⟨w, rest⟩
    · have hq : s.queue = [] := h.flush hm hp
      exact ⟨0, by simpa using hq, by simpa using hp, by simpa using h⟩
    · have hmeas := pump_measure hp
      obtain ⟨n, h1, h2, h3⟩ := ih (pump s) (inv_pump h) hm (by omega)
      refine ⟨n + 1, ?_, ?_, ?_⟩ <;> rw [Function.iterate_succ_apply] <;>
        assumption

/-! ### Reachability of the demonstration states -/

theorem sDemo_reachable : Reachable cfg2 sDemo :=
  Reachable.step (Event.submit wC)
    (Reachable.step (Event.submit wB)
      (Reachable.step (Event.submit wA) Reachable.init rfl) rfl) rfl

theorem sDrain_reachable : Reachable cfg2 sDrain :=
  Reachable.step Event.drainReq sDemo_reachable rfl

theorem sNC_reachable : Reachable cfgNC sNC :=
  Reachable.step (Event.complete wA 0)
    (Reachable.step (Event.submit wA) Reachable.init rfl) rfl

/-! ### The claims -/

/-- Claim C1: for every Pool constructed with maxProcs = N, N at least 1,
and every sequence of submit, completion and error signals, the number of
Workers in the active set never exceeds N: active is at most maxProcs in
every reachable state. -/
theorem activeCount_le_maxProcs {cfg : Settings} {s : PoolState}
    (_hN : 1 ≤ cfg.maxProcs) (hR : Reachable cfg s) :
    active s ≤ cfg.maxProcs :=
  (reachable_inv hR).bounded

/-- Witness for C1: a concrete reachable maxProcs-2 pool keeps its active
set within the bound. -/
theorem activeCount_le_maxProcs_witness :
    1 ≤ cfg2.maxProcs ∧ active sDemo ≤ cfg2.maxProcs :=
  ⟨by decide, activeCount_le_maxProcs (by decide) sDemo_reachable⟩

/-- Claim C2: admission is strict FIFO.  Each admission removes exactly the
head of the queue (_runWorker shifts the queue head into the pool), the
submission log is always the admission log followed by the pending queue,
and therefore, in a duplicate-free run, a Worker submitted at an earlier
position and later admitted occupies the same, earlier position of the
admission log: a Worker submitted before another is never admitted after
it. -/
theorem fifo_admission {cfg : Settings} {s : PoolState} (hR : Reachable cfg s)
    (hnd : s.submitted.Nodup) :
    (∀ (t : PoolState) (w : Worker) (rest : List Worker), t.queue = w :: rest →
        (_runWorker t).queue = rest ∧ (_runWorker t).pool = t.pool ++ [w] ∧
        (_runWorker t).admitted = t.admitted ++ [w]) ∧
    s.submitted = s.admitted ++ s.queue ∧
    (∀ (i j : Nat) (A B : Worker), i < j →
        s.submitted[i]? = some A → s.submitted[j]? = some B →
        A ∈ s.admitted → B ∈ s.admitted →
        i < s.admitted.length ∧ j < s.admitted.length ∧
        s.admitted[i]? = some A ∧ s.admitted[j]? = some B) := by
  have hInv := reachable_inv hR
  refine ⟨?_, hInv.order, ?_⟩
  · intro t w rest h
    rw [runWorker_cons h]
    exact ⟨rfl, rfl, rfl⟩
  · intro i j A B hij hA hB hmA hmB
    have horder := hInv.order
    rw [horder] at hnd hA hB
    obtain ⟨hilt, hAi⟩ := index_into_left hnd hA hmA
    obtain ⟨hjlt, hBj⟩ := index_into_left hnd hB hmB
    exact ⟨hilt, hjlt, hAi, hBj⟩

/-- Witness for C2: the demonstration pool has a duplicate-free submission
log that extends its admission log by the queue. -/
theorem fifo_admission_witness :
    sDemo.submitted.Nodup ∧ sDemo.submitted = sDemo.admitted ++ sDemo.queue :=
  ⟨by decide, (fifo_admission sDemo_reachable (by decide)).2.1⟩

/-- Claim C3 is false on the code: the worker error handler in
Pool.prototype.init subscribes _workerError to the terminate event of the
killed worker, but Worker.prototype.kill emits terminated, so the routing
callback never fires.  At a concrete state with wA active, an error signal
for wA leaves the pool state completely unchanged: wA stays in the active
set, nothing is recorded in the error cache, and admission is not re-run
even though wC is queued below the limit.  Even the dead _workerError
routine would not re-run admission here: under the default dieOnError it
evaluates this._die(err), where the boolean _die field shadows the _die
method, raising a TypeError. -/
theorem worker_error_signal_has_no_effect :
    poolErrorListenerEvent ≠ workerTerminatedEvent ∧
    onWorkerError sDemo wA "boom" = sDemo ∧
    wA ∈ sDemo.pool ∧
    sDemo.errors = [] ∧
    sDemo.queue = [wC] ∧
    (_workerError sDemo wA "boom").crashed = true := by
  refine ⟨by decide, by decide, by decide, by decide, by decide, by decide⟩

/-- Claim C4 is false on the code: the die path is broken.  An error signal
under dieOnError never sets the die flag (the handler waits on the wrong
event name, and the _workerError body would raise a TypeError at
this._die(err) because the boolean _die field shadows the method); the
shadowed Pool.prototype._die method itself kills no active worker (it only
sets flags); and the empty handler always calls process.exit(0), so even a
die-triggered shutdown would report status 0, not non-zero. -/
theorem die_policy_unimplemented :
    (onWorkerError sDemo wA "boom").die = false ∧
    (_workerError sDemo wA "boom").crashed = true ∧
    dieMethod sDemo "e" = { sDemo with die := true, drain := true } ∧
    (dieMethod sDemo "e").pool = sDemo.pool ∧
    _checkEmpty sDie = { sDie with exitedWith := some 0 } := by
  refine ⟨by decide, by decide, by decide, by decide, by decide⟩

/-- Claim C5: drain is a one-shot admission barrier.  A second drain call
changes nothing; while draining with a non-empty active set no event
admits anything (submissions pile up, completions that leave the active
set non-empty admit nothing, error signals admit nothing); once the active
set is empty while draining, _run clears the drain flag and resumes
admission; and repeated completion signals eventually admit every queued
worker (the submission log catches up with the admission log). -/
theorem drain_one_shot {cfg : Settings} {s : PoolState}
    (hR : Reachable cfg s) (hm : 1 ≤ cfg.maxProcs) :
    drain (drain s) = drain s ∧
    (s.drain = true → s.pool ≠ [] →
      (∀ w, (applyEvent s (Event.submit w)).admitted = s.admitted) ∧
      (∀ w c, s.pool.erase w ≠ [] →
        (applyEvent s (Event.complete w c)).admitted = s.admitted) ∧
      (∀ w e, (applyEvent s (Event.error w e)).admitted = s.admitted)) ∧
    (s.drain = true → s.pool = [] →
      _run s = _fillPool { s with drain := false } ∧ (_run s).drain = false) ∧
    ∃ n, (pump^[n] s).queue = [] ∧
      (pump^[n] s).submitted = (pump^[n] s).admitted := by
  have hInv := reachable_inv hR
  refine ⟨?_, ?_, ?_, ?_⟩
  · rcases drain_eq s with h | h
    · rw [h, h]
    · rw [h]
      simp [drain]
  · intro h1 h2
    exact ⟨fun w => addWorker_admitted_drain_busy h1 h2 w,
      fun w c hc => complete_admitted_drain_busy c h1 hc,
      fun w e => error_admitted_unchanged s w e⟩
  · intro h1 h2
    refine ⟨run_drain_clear hInv.dieOff h1 h2, ?_⟩
    rw [run_drain_clear hInv.dieOff h1 h2, fillPool_drain]
  · obtain ⟨n, hq, hpool, hI⟩ :=
      pump_reaches_empty (s.queue.length + s.pool.length) s hInv hm
        (Nat.le_refl _)
    refine ⟨n, hq, ?_⟩
    have horder := hI.order
    rw [hq] at horder
    simpa using horder

/-- Witness for C5: the demonstration pool in drain mode, with two active
workers and one queued, satisfies the hypotheses; drain is idempotent on
it. -/
theorem drain_one_shot_witness :
    1 ≤ cfg2.maxProcs ∧ sDrain.drain = true ∧ sDrain.pool ≠ [] ∧
    drain (drain sDrain) = drain sDrain :=
  ⟨by decide, by decide, by decide,
    (drain_one_shot sDrain_reachable (by decide)).1⟩

/-- Claim C8 is false on the code: the constructor merges options with
util._extend and never clamps, so a supplied maxProcs of 8 on a 4-CPU host
stays 8, while the specification text demands the clamp to 4. -/
theorem maxProcs_not_clamped :
    (mkSettings 4 { maxProcs := some 8 }).maxProcs = 8 ∧
    specMaxProcs 4 { maxProcs := some 8 } = 4 ∧
    (mkSettings 4 { maxProcs := some 8 }).maxProcs ≠
      specMaxProcs 4 { maxProcs := some 8 } := by
  refine ⟨by decide, by decide, by decide⟩

/-- Claim C8, amended: when maxProcs is not supplied it defaults to the
hardware concurrency; a supplied value is used as-is, even when it exceeds
the hardware concurrency. -/
theorem maxProcs_default_and_override (cpusLen m : Nat)
    (dE dEm c : Option Bool) :
    (mkSettings cpusLen
      { maxProcs := none, dieOnError := dE, dieOnEmpty := dEm
        cache := c }).maxProcs = cpusLen ∧
    (mkSettings cpusLen
      { maxProcs := some m, dieOnError := dE, dieOnEmpty := dEm
        cache := c }).maxProcs = m :=
  ⟨rfl, rfl⟩

/-- Claim C9: with caching disabled, getCache returns two empty sequences
in every reachable state: no record is ever appended to the completed
cache or the error cache. -/
theorem caching_disabled_no_outcomes {cfg : Settings} {s : PoolState}
    (hR : Reachable cfg s) (hc : cfg.cache = false) :
    getCache s = ([], []) := by
  rcases (reachable_inv hR).noCache hc with ⟨h1, h2⟩
  unfold getCache
  rw [h1, h2]

/-- Witness for C9: a concrete no-caching pool that ran a worker to
completion still has two empty caches. -/
theorem caching_disabled_no_outcomes_witness :
    cfgNC.cache = false ∧ getCache sNC = ([], []) :=
  ⟨by decide, caching_disabled_no_outcomes sNC_reachable (by decide)⟩

end Crew.Pool

namespace Crew

/-- Claim C6 is false on the code: kill is not idempotent.  The guard in
Worker.prototype.kill is self.verifyChild && (!isKilled() || !isExited());
the method reference self.verifyChild is truthy without being called, and
the disjunction only blocks when the worker is both killed and exited.  On
a worker whose child is killed but has not exited - a terminal state - a
second kill runs killProc again and emits a second terminated event
(emission count 1 instead of 0), so terminated is not emitted exactly once
over the lifetime. -/
theorem kill_reemits_terminated :
    WorkerState.kill runningWorker = some (killedWorker, 1) ∧
    WorkerState.isKilled killedWorker = true ∧
    WorkerState.isExited killedWorker = false ∧
    WorkerState.kill killedWorker = some (killedWorker, 1) := by
  refine ⟨by decide, by decide, by decide, by decide⟩

/-- Claim C7 is false on the code: the current Worker.prototype.verifyChild
reads this.child_uid, a property no statement in the repository ever
assigns, instead of the uid stamped onto the child handle, so it returns
false even for a perfectly matching child (pid recorded at spawn, uid
stamped at spawn).  The earlier Worker variant and the Task variant of the
same check return true on the same data, showing the intended meaning. -/
theorem verifyChild_rejects_matching_child :
    runningWorker.child =
      some { pid := 7, childUid := some 1, connected := true } ∧
    runningWorker.pidRec = some 7 ∧
    WorkerState.uid runningWorker = 1 ∧
    runningWorker.child_uid = none ∧
    WorkerState.verifyChild runningWorker = false ∧
    WorkerState.verifyChildV1 runningWorker runningWorker.child = true ∧
    WorkerState.taskVerifyChild runningWorker runningWorker.child = true := by
  refine ⟨by decide, by decide, by decide, by decide, by decide, by decide,
    by decide⟩

/-- Claim C10 is false on the code: send on a live, freshly spawned worker
with no initial payload transmits nothing - the transmit guard calls
verifyChild(), which never returns true - and stores nothing either,
because the buffering branch requires this._settings.data to already be
defined; the data is silently dropped. -/
theorem send_to_live_worker_drops_data :
    WorkerState.createChildProc { uidVal := 1 } true 7 =
      some (runningWorker, none) ∧
    WorkerState.isKilled runningWorker = false ∧
    runningWorker.settingsData = none ∧
    WorkerState.send runningWorker 42 = (runningWorker, none) := by
  refine ⟨by decide, by decide, by decide, by decide⟩

end Crew
